import Mathlib

/-!
Verification development for the polar-plant dashboard's data-ingestion
pipeline (`src/main.py`).  The ingestion layer is embedded shallowly:
pandas DataFrames become `DataFrame` (a column list plus rows of
string-keyed cells), Python exceptions become `Except String`, the file
system and the two opaque library functions used by the source
(`unicodedata.normalize('NFC', ·)` and the pandas timestamp parser) are
parameters of an `FS` record.  Every definition follows the source line
by line; line references are given in the doc comments.
-/

namespace PolarPlant

/-- A single cell of a table: a string, a (rational) number, a parsed
timestamp, or a missing value (pandas `NaN`/`NaT`). -/
inductive Cell where
  | str (s : String)
  | num (q : Rat)
  | time (t : Rat)
  | null
deriving DecidableEq

/-- A row is an association list from column name to cell; rows built by
the pipeline have one entry per column of their frame. -/
abbrev Row := List (String × Cell)

/-- A pandas DataFrame: ordered column names and ordered rows. -/
structure DataFrame where
  cols : List String
  rows : List Row
deriving DecidableEq

/-- `pd.DataFrame()`: the explicitly-empty table. -/
def DataFrame.empty : DataFrame := ⟨[], []⟩

/-- Lookup in an association list with string keys (first match). -/
def alist_get {α : Type} : List (String × α) → String → Option α
  | [], _ => none
  | (k, v) :: rest, c => if k = c then some v else alist_get rest c

/-- Update-or-append in an association list with string keys: replaces
the (first) existing entry in place, else appends at the end.  This is
Python `d[k] = v` for dicts and the per-row effect of pandas column
assignment `df[c] = v`. -/
def alist_set {α : Type} : List (String × α) → String → α → List (String × α)
  | [], c, v => [(c, v)]
  | (k, w) :: rest, c, v =>
    if k = c then (c, v) :: rest else (k, w) :: alist_set rest c v

/-- Cell access with pandas missing-value semantics: a column absent
from a row reads as `Cell.null` (NaN). -/
def getCell (r : Row) (c : String) : Cell := (alist_get r c).getD Cell.null

/-- `df[c] = v` for a scalar `v` (main.py lines 56-57, 74-75): sets the
cell in every row, appending the column name if it is new. -/
def setColumn (df : DataFrame) (c : String) (v : Cell) : DataFrame :=
  { cols := if df.cols.contains c then df.cols else df.cols ++ [c],
    rows := df.rows.map (fun r => alist_set r c v) }

/-- Per-group configuration (main.py lines 43-48). -/
structure SchoolCfg where
  ec_target : Rat
  color : String
deriving DecidableEq

/-- The fixed group table `school_info` of main.py lines 43-48, in its
insertion (configured) order. -/
def school_info : List (String × SchoolCfg) :=
  [("송도고", ⟨1, "#ABDEE6"⟩),
   ("하늘고", ⟨2, "#FFCCB6"⟩),
   ("아라고", ⟨4, "#F3B0C3"⟩),
   ("동산고", ⟨8, "#CBAACB"⟩)]

/-- Python `school_info.get(s)` / `s in school_info` (dict lookup). -/
def lookupSchool (s : String) : Option SchoolCfg := alist_get school_info s

/-- Tagging of a parsed per-group table (main.py lines 56-57 and 74-75):
`df['school'] = school; df['target_ec'] = ec`. -/
def addGroupCols (df : DataFrame) (school : String) (ec : Rat) : DataFrame :=
  setColumn (setColumn df "school" (Cell.str school)) "target_ec" (Cell.num ec)

/-- `get_normalized_path` (main.py lines 36-40): scan the directory
listing in order and return the first entry whose name, NFC-normalized,
equals the NFC-normalized target; `nf` stands for the opaque library
function `unicodedata.normalize('NFC', ·)`. -/
def get_normalized_path (nf : String → String) : List String → String → Option String
  | [], _ => none
  | p :: rest, target =>
    if nf p = nf target then some p else get_normalized_path nf rest target

/-- The environment of one run of `load_data`: the existence of the base
directory, its listing, the results of reading each CSV file and the
workbook, the pandas timestamp parser, and NFC normalization.
`Except.error` models a raised Python exception. -/
structure FS where
  baseExists : Bool
  files : List String
  readCsv : String → Except String DataFrame
  readXlsx : String → Except String (List (String × DataFrame))
  parseTs : String → Option Rat
  nfc : String → String

/-- `f"{school}_환경데이터.csv"` (main.py line 53). -/
def env_csv_name (school : String) : String := school ++ "_환경데이터.csv"

/-- The workbook name (main.py line 65). -/
def growth_xlsx_name : String := "4개교_생육결과데이터.xlsx"

/-- The environmental loading loop (main.py lines 50-58): for each
school in configured order, resolve the CSV name; if found, read it
(`pd.read_csv` may raise — there is no `try` in the source, so the error
propagates) and tag it with the school name and target EC. -/
def loadEnvDfs (fs : FS) : List (String × SchoolCfg) → Except String (List DataFrame)
  | [] => Except.ok []
  | (school, cfg) :: rest =>
    match get_normalized_path fs.nfc fs.files (env_csv_name school) with
    | none => loadEnvDfs fs rest
    | some p =>
      match fs.readCsv p with
      | Except.error e => Except.error e
      | Except.ok df =>
        match loadEnvDfs fs rest with
        | Except.error e => Except.error e
        | Except.ok ds => Except.ok (addGroupCols df school cfg.ec_target :: ds)

/-- Union of column lists preserving first-appearance order (pandas
`concat` with the default outer join). -/
def colUnion : List String → List String → List String
  | acc, [] => acc
  | acc, c :: cs => colUnion (if acc.contains c then acc else acc ++ [c]) cs

/-- Fold `colUnion` over the frames being concatenated. -/
def dfsColsUnion : List String → List DataFrame → List String
  | acc, [] => acc
  | acc, df :: rest => dfsColsUnion (colUnion acc df.cols) rest

/-- Row concatenation in input order. -/
def concatRows : List DataFrame → List Row
  | [] => []
  | df :: rest => df.rows ++ concatRows rest

/-- `pd.concat(dfs, ignore_index=True)`: rows in concatenation order,
columns the outer union of the inputs' columns; a row keeps only its own
entries, so a column it lacks reads as `Cell.null` (NaN-filled). -/
def concatDFs (dfs : List DataFrame) : DataFrame :=
  { cols := dfsColsUnion [] dfs, rows := concatRows dfs }

/-- `pd.concat(dfs, ignore_index=True) if dfs else pd.DataFrame()`
(main.py lines 60 and 78). -/
def pd_concat (dfs : List DataFrame) : DataFrame :=
  if dfs.isEmpty then DataFrame.empty else concatDFs dfs

/-- `pd.to_datetime` on one cell: missing stays missing (NaT), an
already-parsed timestamp stays, a string goes through the parser `pt`
(failure = `none` = raised exception), a plain number is read as an
epoch offset. -/
def parseTimeCell (pt : String → Option Rat) : Cell → Option Cell
  | Cell.null => some Cell.null
  | Cell.time t => some (Cell.time t)
  | Cell.str s => (pt s).map Cell.time
  | Cell.num q => some (Cell.time q)

/-- `pd.to_datetime` on the `time` entry of one row. -/
def parseRowTime (pt : String → Option Rat) (r : Row) : Option Row :=
  match alist_get r "time" with
  | none => some r
  | some c => (parseTimeCell pt c).map (fun c2 => alist_set r "time" c2)

/-- `pd.to_datetime` over all rows; `none` = a raised parse error. -/
def parseRowsTime (pt : String → Option Rat) : List Row → Option (List Row)
  | [] => some []
  | r :: rest =>
    match parseRowTime pt r with
    | none => none
    | some r2 => (parseRowsTime pt rest).map (fun rs => r2 :: rs)

/-- `env_data['time'] = pd.to_datetime(env_data['time'])` (main.py line
62): a missing `time` column raises `KeyError`, an unparsable value
raises a parse error; both propagate (no `try` in the source). -/
def to_datetime_col (pt : String → Option Rat) (df : DataFrame) : Except String DataFrame :=
  if df.cols.contains "time" then
    match parseRowsTime pt df.rows with
    | some rs => Except.ok ⟨df.cols, rs⟩
    | none => Except.error "time parse error"
  else Except.error "KeyError: time"

/-- The sheet loop of main.py lines 70-76: for each sheet in workbook
order, NFC-normalize its name; if the normalized name is a known school,
parse and tag the sheet and store it in the dict keyed by the normalized
name (later sheets overwrite earlier ones); otherwise skip the sheet. -/
def growthLoop (nf : String → String) :
    List (String × DataFrame) → List (String × DataFrame) → List (String × DataFrame)
  | [], d => d
  | (sheet, sdf) :: rest, d =>
    match lookupSchool (nf sheet) with
    | some cfg =>
      growthLoop nf rest (alist_set d (nf sheet) (addGroupCols sdf (nf sheet) cfg.ec_target))
    | none => growthLoop nf rest d

/-- Growth loading (main.py lines 64-78): resolve the workbook name; if
absent the dict stays empty; otherwise open the workbook (a read failure
propagates), run the sheet loop, and concatenate the dict's values in
insertion order. -/
def load_growth (fs : FS) : Except String DataFrame :=
  match get_normalized_path fs.nfc fs.files growth_xlsx_name with
  | none => Except.ok DataFrame.empty
  | some p =>
    match fs.readXlsx p with
    | Except.error e => Except.error e
    | Except.ok sheets =>
      Except.ok (pd_concat ((growthLoop fs.nfc sheets []).map Prod.snd))

/-- The value returned by `load_data`: `missingDir` is the early
`return None, None` of line 31 (a 2-tuple, while the success path of
line 80 returns a 3-tuple), issued after `st.error` reports the missing
base directory; `ok` carries the two unified tables of line 80. -/
inductive LoadRet where
  | missingDir
  | ok (env growth : DataFrame)
deriving DecidableEq

/-- `load_data` (main.py lines 27-80): check the base directory, load
and tag the per-school CSVs, concatenate them, coerce the `time` column
if the table is non-empty, then load the growth workbook.  An
`Except.error` is a Python exception escaping `load_data`. -/
def load_data (fs : FS) : Except String LoadRet :=
  if fs.baseExists then
    match loadEnvDfs fs school_info with
    | Except.error e => Except.error e
    | Except.ok dfs =>
      match (if (pd_concat dfs).rows.isEmpty then Except.ok (pd_concat dfs)
             else to_datetime_col fs.parseTs (pd_concat dfs)) with
      | Except.error e => Except.error e
      | Except.ok env =>
        match load_growth fs with
        | Except.error e => Except.error e
        | Except.ok growth => Except.ok (LoadRet.ok env growth)
  else Except.ok LoadRet.missingDir

/-- The caller's unpacking `env_df, growth_df, SCHOOL_INFO = load_data()`
(main.py line 84): the 2-tuple returned in the missing-directory case
does not match the three targets and raises `ValueError`. -/
def run_unpack : LoadRet → Except String (DataFrame × DataFrame)
  | LoadRet.missingDir => Except.error "ValueError: not enough values to unpack"
  | LoadRet.ok env growth => Except.ok (env, growth)

/-- Outcome of the script up to the emptiness gate of lines 86-88:
`uncaught` is an exception reaching streamlit, `halted` is the
`st.error(...); st.stop()` branch, `proceeding` continues into the
view-building tabs with the two tables. -/
inductive TopOutcome where
  | uncaught (msg : String)
  | halted
  | proceeding (env growth : DataFrame)
deriving DecidableEq

/-- Lines 83-88 of main.py: run `load_data`, unpack its result, then
halt when either unified table is empty, otherwise proceed. -/
def run_to_gate (fs : FS) : TopOutcome :=
  match load_data fs with
  | Except.error e => TopOutcome.uncaught e
  | Except.ok ret =>
    match run_unpack ret with
    | Except.error e => TopOutcome.uncaught e
    | Except.ok (env, growth) =>
      if env.rows.isEmpty || growth.rows.isEmpty then TopOutcome.halted
      else TopOutcome.proceeding env growth

/-! ### The aggregate views (main.py lines 141, 176-177)

`avg_env`/`avg_growth` are
`df.groupby('school').mean(numeric_only=True).reset_index()`; pandas
groups by the distinct non-null key values **sorted ascending** (the
default `sort=True`), strings being compared code point by code point as
in Python; the mean of each numeric column skips missing values.
`best_school` is `avg.loc[avg['생중량(g)'].idxmax(), 'school']`:
`idxmax` returns the first index attaining the maximum, skipping
missing values. -/

/-- The `school` tag of a row, when it is a string (pandas groups by the
non-null key values). -/
def schoolOf (r : Row) : Option String :=
  match alist_get r "school" with
  | some (Cell.str s) => some s
  | _ => none

/-- The rows of `df` belonging to group `k`. -/
def groupRows (df : DataFrame) (k : String) : List Row :=
  df.rows.filter (fun r => schoolOf r == some k)

/-- The numeric values present in column `c` of the given rows (missing
and non-numeric cells are skipped, as pandas `mean` skips NaN). -/
def colVals (rows : List Row) (c : String) : List Rat :=
  rows.filterMap (fun r =>
    match alist_get r c with
    | some (Cell.num q) => some q
    | _ => none)

/-- Rational addition written through `mkRat`, so that it evaluates
inside the kernel; `qadd_eq` below identifies it with `+`. -/
def qadd (a b : Rat) : Rat := mkRat (a.num * b.den + b.num * a.den) (a.den * b.den)

/-- Rational division by a natural number through `mkRat`;
`qdivNat_eq` identifies it with `/`. -/
def qdivNat (a : Rat) (n : Nat) : Rat := mkRat a.num (a.den * n)

/-- Sum of a list of rationals via `qadd`; `qsum_eq` identifies it with
`List.sum`. -/
def qsum : List Rat → Rat
  | [] => 0
  | x :: xs => qadd x (qsum xs)

/-- Maximum of two rationals via the executable comparison `Rat.blt`;
`qmax_eq` identifies it with `max`. -/
def qmax (a b : Rat) : Rat := if Rat.blt a b then b else a

/-- The pandas column mean: sum of the present values divided by their
count, `NaN` when none are present. -/
def colMean (rows : List Row) (c : String) : Cell :=
  let vs := colVals rows c
  if vs.isEmpty then Cell.null else Cell.num (qdivNat (qsum vs) vs.length)

/-- Keep the first occurrence of each string (the distinct group keys in
first-appearance order). -/
def dedupFirstGo : List String → List String → List String
  | [], _ => []
  | s :: rest, seen =>
    if seen.contains s then dedupFirstGo rest seen else s :: dedupFirstGo rest (s :: seen)

/-- The distinct elements of a list of strings, first occurrences first. -/
def dedupFirst (l : List String) : List String := dedupFirstGo l []

/-- The sequence of code points of a string, the key Python compares
strings by. -/
def strKey (s : String) : List Nat := s.toList.map Char.toNat

/-- Lexicographic comparison of code-point sequences (Python string
`<=`). -/
def natListLe : List Nat → List Nat → Bool
  | [], _ => true
  | _ :: _, [] => false
  | a :: as, b :: bs => if a < b then true else if b < a then false else natListLe as bs

/-- Python string comparison `a <= b` by code points. -/
def strLeB (a b : String) : Bool := natListLe (strKey a) (strKey b)

/-- Insert into a list sorted by `strLeB`. -/
def insertSorted (s : String) : List String → List String
  | [] => [s]
  | x :: xs => if strLeB s x then s :: x :: xs else x :: insertSorted s xs

/-- Sort strings ascending by code points (the order pandas sorts group
keys in). -/
def sortStrings : List String → List String
  | [] => []
  | x :: xs => insertSorted x (sortStrings xs)

/-- The group keys of `df.groupby('school')`: distinct non-null `school`
values, sorted ascending. -/
def avgKeys (df : DataFrame) : List String :=
  sortStrings (dedupFirst (df.rows.filterMap schoolOf))

/-- Cells of numeric dtype (numbers and missing values). -/
def isNumCell : Cell → Bool
  | Cell.num _ => true
  | Cell.null => true
  | _ => false

/-- A column pandas treats as numeric for `mean(numeric_only=True)`:
every present cell is a number or missing. -/
def isNumericCol (df : DataFrame) (c : String) : Bool :=
  df.rows.all (fun r =>
    match alist_get r c with
    | some cell => isNumCell cell
    | none => true)

/-- The columns surviving `mean(numeric_only=True)` after grouping by
`school`: the numeric columns other than the key, in original order. -/
def numericCols (df : DataFrame) : List String :=
  df.cols.filter (fun c => !(c == "school") && isNumericCol df c)

/-- One row of the group-mean view: the key followed by the mean of each
numeric column over that group's rows. -/
def avgRow (df : DataFrame) (k : String) : Row :=
  ("school", Cell.str k) :: (numericCols df).map (fun c => (c, colMean (groupRows df k) c))

/-- `df.groupby('school').mean(numeric_only=True).reset_index()`
(main.py lines 141 and 176). -/
def avg_by_school (df : DataFrame) : DataFrame :=
  { cols := "school" :: numericCols df,
    rows := (avgKeys df).map (avgRow df) }

/-- The `생중량(g)` column of a frame as optional numbers (missing or
non-numeric cells are NaN). -/
def colValsOpt (df : DataFrame) (c : String) : List (Option Rat) :=
  df.rows.map (fun r =>
    match alist_get r c with
    | some (Cell.num q) => some q
    | _ => none)

/-- Maximum of a list of rationals, `none` when empty. -/
def listMaxQ : List Rat → Option Rat
  | [] => none
  | x :: xs =>
    match listMaxQ xs with
    | none => some x
    | some m => some (qmax x m)

/-- First position holding exactly `some m`. -/
def findIdxEq (m : Rat) : List (Option Rat) → Option Nat
  | [] => none
  | x :: xs => if x = some m then some 0 else (findIdxEq m xs).map (· + 1)

/-- `Series.idxmax`: the first index attaining the maximum of the
present values; `none` when no value is present (pandas raises there). -/
def idxmax (l : List (Option Rat)) : Option Nat :=
  match listMaxQ (l.filterMap id) with
  | none => none
  | some m => findIdxEq m l

/-- `avg.loc[avg['생중량(g)'].idxmax(), 'school']` (main.py line 177). -/
def best_school (avg : DataFrame) : Option String :=
  (idxmax (colValsOpt avg "생중량(g)")).bind (fun i =>
    (avg.rows.get? i).bind (fun r =>
      match alist_get r "school" with
      | some (Cell.str s) => some s
      | _ => none))

/-! ### Spec-side order definitions

The spec (§4.4) says the group-mean rows are ordered "in the order
groups first appear (or in the fixed configured group order)".  These
two definitions follow those words, for comparison with the
`avg_by_school` embedding of the source. -/

/-- From the spec's words: the distinct groups of the table in the order
they first appear. -/
def spec_first_appearance_order (df : DataFrame) : List String :=
  dedupFirst (df.rows.filterMap schoolOf)

/-- From the spec's words: the fixed configured group order, restricted
to the groups present in the table. -/
def spec_configured_order (df : DataFrame) : List String :=
  (school_info.map Prod.fst).filter (fun s => (df.rows.filterMap schoolOf).contains s)

/-! ### Concrete run environments and tables used in witnesses and
counterexamples -/

/-- A well-formed CSV table for one school: a `time` string column and a
numeric `temperature` column. -/
def csvSongdo : DataFrame :=
  ⟨["time", "temperature"],
   [[("time", Cell.str "t1"), ("temperature", Cell.num 10)]]⟩

/-- A growth sheet with one specimen. -/
def sheetSongdo : DataFrame :=
  ⟨["생중량(g)"], [[("생중량(g)", Cell.num 5)]]⟩

/-- A second, different growth sheet for the same school. -/
def sheetSongdoB : DataFrame :=
  ⟨["생중량(g)"], [[("생중량(g)", Cell.num 7)]]⟩

/-- A fully successful environment: the base directory exists and holds
one school's CSV and the growth workbook, both readable, and the one
time string parses. -/
def fsW : FS :=
  { baseExists := true,
    files := ["송도고_환경데이터.csv", "4개교_생육결과데이터.xlsx"],
    readCsv := fun p => if p = "송도고_환경데이터.csv" then Except.ok csvSongdo
                        else Except.error "FileNotFoundError",
    readXlsx := fun p => if p = "4개교_생육결과데이터.xlsx" then Except.ok [("송도고", sheetSongdo)]
                         else Except.error "FileNotFoundError",
    parseTs := fun s => if s = "t1" then some 100 else none,
    nfc := fun s => s }

/-- The same environment with the base directory missing. -/
def fsNoBase : FS := { fsW with baseExists := false }

/-- The same environment, but reading any CSV raises. -/
def fsCrash : FS := { fsW with readCsv := fun _ => Except.error "read failure" }

/-- A CSV table holding one parsable and one unparsable time value. -/
def csvSongdoBad : DataFrame :=
  ⟨["time", "temperature"],
   [[("time", Cell.str "t1"), ("temperature", Cell.num 10)],
    [("time", Cell.str "bad"), ("temperature", Cell.num 11)]]⟩

/-- The same environment, but the CSV holds one parsable and one
unparsable time value. -/
def fsBadTime : FS :=
  { fsW with
    readCsv := fun p =>
      if p = "송도고_환경데이터.csv" then Except.ok csvSongdoBad
      else Except.error "FileNotFoundError" }

/-- The unparsable row of `csvSongdoBad` as it appears after tagging. -/
def badRow : Row :=
  [("time", Cell.str "bad"), ("temperature", Cell.num 11),
   ("school", Cell.str "송도고"), ("target_ec", Cell.num 1)]

/-- The unified environmental table produced by `load_data fsW`. -/
def envW : DataFrame :=
  ⟨["time", "temperature", "school", "target_ec"],
   [[("time", Cell.time 100), ("temperature", Cell.num 10),
     ("school", Cell.str "송도고"), ("target_ec", Cell.num 1)]]⟩

/-- The unified growth table produced by `load_data fsW`. -/
def growthW : DataFrame :=
  ⟨["생중량(g)", "school", "target_ec"],
   [[("생중량(g)", Cell.num 5), ("school", Cell.str "송도고"), ("target_ec", Cell.num 1)]]⟩

/-- A three-row per-group table (the spec's group A). -/
def dfA : DataFrame :=
  ⟨["school", "temperature"],
   [[("school", Cell.str "A"), ("temperature", Cell.num 1)],
    [("school", Cell.str "A"), ("temperature", Cell.num 2)],
    [("school", Cell.str "A"), ("temperature", Cell.num 3)]]⟩

/-- A zero-row per-group table (the spec's group B). -/
def dfB0 : DataFrame := ⟨["school", "temperature"], []⟩

/-- A five-row per-group table (the spec's group C). -/
def dfC : DataFrame :=
  ⟨["school", "humidity"],
   [[("school", Cell.str "C"), ("humidity", Cell.num 1)],
    [("school", Cell.str "C"), ("humidity", Cell.num 2)],
    [("school", Cell.str "C"), ("humidity", Cell.num 3)],
    [("school", Cell.str "C"), ("humidity", Cell.num 4)],
    [("school", Cell.str "C"), ("humidity", Cell.num 5)]]⟩

/-- A toy normalization function with one composed/decomposed Hangul
pair: the decomposed syllable ᄀ+ᅡ normalizes to the precomposed 가. -/
def nfcToy (s : String) : String := if s = "가" then "가" else s

/-- A unified-style table with two groups whose configured/appearance
order (송도고 before 동산고) differs from the sorted order. -/
def cexDf8 : DataFrame :=
  ⟨["school", "temperature"],
   [[("school", Cell.str "송도고"), ("temperature", Cell.num 10)],
    [("school", Cell.str "동산고"), ("temperature", Cell.num 20)]]⟩

/-- A growth-style table with two groups tied on mean fresh weight,
appearing in the order 하늘고 then 동산고. -/
def cexDf9 : DataFrame :=
  ⟨["school", "생중량(g)"],
   [[("school", Cell.str "하늘고"), ("생중량(g)", Cell.num 5)],
    [("school", Cell.str "동산고"), ("생중량(g)", Cell.num 5)]]⟩

/-! ### Bridge lemmas: the executable rational operations agree with
Mathlib's arithmetic on `ℚ` -/

theorem rat_lt_iff_blt (a b : Rat) : a < b ↔ Rat.blt a b = true := Iff.rfl

theorem qadd_eq (a b : Rat) : qadd a b = a + b := by
  have ha : ((a.den : ℚ)) ≠ 0 := Nat.cast_ne_zero.mpr a.den_nz
  have hb : ((b.den : ℚ)) ≠ 0 := Nat.cast_ne_zero.mpr b.den_nz
  have hA : (a.num : ℚ) = a * a.den := (div_eq_iff ha).mp (Rat.num_div_den a)
  have hB : (b.num : ℚ) = b * b.den := (div_eq_iff hb).mp (Rat.num_div_den b)
  unfold qadd
  rw [Rat.mkRat_eq_div]
  push_cast [hA, hB]
  rw [div_eq_iff (mul_ne_zero ha hb)]
  ring

theorem qdivNat_eq (a : Rat) (n : Nat) (hn : n ≠ 0) : qdivNat a n = a / n := by
  have ha : ((a.den : ℚ)) ≠ 0 := Nat.cast_ne_zero.mpr a.den_nz
  have hn2 : ((n : ℚ)) ≠ 0 := Nat.cast_ne_zero.mpr hn
  have hA : (a.num : ℚ) = a * a.den := (div_eq_iff ha).mp (Rat.num_div_den a)
  unfold qdivNat
  rw [Rat.mkRat_eq_div]
  push_cast [hA]
  rw [div_eq_div_iff (mul_ne_zero ha hn2) hn2]
  ring

theorem qsum_eq (l : List Rat) : qsum l = l.sum := by
  induction l with
  | nil => rfl
  | cons x xs ih => rw [qsum, qadd_eq, ih, List.sum_cons]

theorem qmax_eq (a b : Rat) : qmax a b = max a b := by
  unfold qmax
  rcases le_or_lt b a with h | h
  · rw [if_neg (by rw [← rat_lt_iff_blt]; exact not_lt.mpr h), max_eq_left h]
  · rw [if_pos ((rat_lt_iff_blt a b).mp h), max_eq_right h.le]

/-! ### Association-list lemmas -/

theorem alist_get_set_self {α : Type} (l : List (String × α)) (k : String) (v : α) :
    alist_get (alist_set l k v) k = some v := by
  induction l with
  | nil => simp [alist_set, alist_get]
  | cons p rest ih =>
    obtain ⟨k2, w⟩ := p
    by_cases h : k2 = k
    · simp [alist_set, h, alist_get]
    · simp [alist_set, h, alist_get, ih]

theorem alist_get_set_other {α : Type} (l : List (String × α)) (k k2 : String) (v : α)
    (h : k2 ≠ k) : alist_get (alist_set l k v) k2 = alist_get l k2 := by
  have h' : k ≠ k2 := Ne.symm h
  induction l with
  | nil => simp [alist_set, alist_get, h']
  | cons p rest ih =>
    obtain ⟨k3, w⟩ := p
    by_cases h3 : k3 = k
    · subst h3
      simp [alist_set, alist_get, h']
    · simp only [alist_set, if_neg h3, alist_get]
      by_cases h4 : k3 = k2
      · simp [h4]
      · simp [h4, ih]

theorem alist_get_map_pairs {α : Type} (f : String → α) (cs : List String) (c : String)
    (h : c ∈ cs) : alist_get (cs.map (fun x => (x, f x))) c = some (f c) := by
  induction cs with
  | nil => cases h
  | cons x rest ih =>
    by_cases hx : x = c
    · subst hx
      simp [alist_get]
    · rcases List.mem_cons.mp h with h1 | h1
      · exact absurd h1.symm hx
      · simp [alist_get, hx, ih h1]

theorem alist_set_keys {α : Type} (l : List (String × α)) (k : String) (v : α) :
    (alist_set l k v).map Prod.fst =
      if k ∈ l.map Prod.fst then l.map Prod.fst else l.map Prod.fst ++ [k] := by
  induction l with
  | nil => simp [alist_set]
  | cons p rest ih =>
    obtain ⟨k2, w⟩ := p
    by_cases h : k2 = k
    · subst h
      simp [alist_set]
    · simp only [alist_set, if_neg h, List.map_cons, ih]
      by_cases h2 : k ∈ rest.map Prod.fst
      · rw [if_pos h2, if_pos (List.mem_cons.mpr (Or.inr h2))]
      · rw [if_neg h2, if_neg, List.cons_append]
        intro hc
        rcases List.mem_cons.mp hc with hc | hc
        · exact h hc.symm
        · exact h2 hc

theorem alist_set_keys_nodup {α : Type} (l : List (String × α)) (k : String) (v : α)
    (h : (l.map Prod.fst).Nodup) : ((alist_set l k v).map Prod.fst).Nodup := by
  rw [alist_set_keys]
  by_cases h2 : k ∈ l.map Prod.fst
  · rwa [if_pos h2]
  · rw [if_neg h2, List.nodup_append]
    refine ⟨h, List.nodup_singleton k, ?_⟩
    intro a ha hk
    rw [List.mem_singleton] at hk
    exact h2 (hk ▸ ha)

/-! ### Tagging lemmas: `addGroupCols` stamps every row -/

theorem addGroupCols_row_tags (df : DataFrame) (s : String) (ec : Rat) (r : Row)
    (h : r ∈ (addGroupCols df s ec).rows) :
    alist_get r "school" = some (Cell.str s) ∧
    alist_get r "target_ec" = some (Cell.num ec) := by
  simp only [addGroupCols, setColumn, List.map_map, List.mem_map] at h
  obtain ⟨r0, _, rfl⟩ := h
  constructor
  · rw [Function.comp_apply,
      alist_get_set_other _ _ _ _ (by decide : "school" ≠ "target_ec"),
      alist_get_set_self]
  · rw [Function.comp_apply, alist_get_set_self]

/-! ### Concatenation lemmas -/

theorem concatRows_eq_flatten (dfs : List DataFrame) :
    concatRows dfs = (dfs.map DataFrame.rows).flatten := by
  induction dfs with
  | nil => rfl
  | cons df rest ih => rw [concatRows, List.map_cons, List.flatten_cons, ih]

theorem mem_colUnion (acc cs : List String) (c : String) :
    c ∈ colUnion acc cs ↔ c ∈ acc ∨ c ∈ cs := by
  induction cs generalizing acc with
  | nil => simp [colUnion]
  | cons x rest ih =>
    rw [colUnion, ih]
    by_cases hx : acc.contains x
    · rw [if_pos hx]
      constructor
      · intro h2
        rcases h2 with h2 | h2
        · exact Or.inl h2
        · exact Or.inr (List.mem_cons.mpr (Or.inr h2))
      · intro h2
        rcases h2 with h2 | h2
        · exact Or.inl h2
        · rcases List.mem_cons.mp h2 with h2 | h2
          · exact Or.inl (h2 ▸ (List.elem_iff.mp hx))
          · exact Or.inr h2
    · rw [if_neg hx]
      simp only [List.mem_append, List.mem_singleton, List.mem_cons]
      tauto

theorem mem_dfsColsUnion (acc : List String) (dfs : List DataFrame) (c : String) :
    c ∈ dfsColsUnion acc dfs ↔ c ∈ acc ∨ ∃ df ∈ dfs, c ∈ df.cols := by
  induction dfs generalizing acc with
  | nil => simp [dfsColsUnion]
  | cons df rest ih =>
    rw [dfsColsUnion, ih, mem_colUnion]
    simp only [List.mem_cons]
    constructor
    · intro h2
      rcases h2 with (h2 | h2) | ⟨d, hd, hc⟩
      · exact Or.inl h2
      · exact Or.inr ⟨df, Or.inl rfl, h2⟩
      · exact Or.inr ⟨d, Or.inr hd, hc⟩
    · intro h2
      rcases h2 with h2 | ⟨d, hd | hd, hc⟩
      · exact Or.inl (Or.inl h2)
      · exact Or.inl (Or.inr (hd ▸ hc))
      · exact Or.inr ⟨d, hd, hc⟩

theorem concatRows_length (dfs : List DataFrame) :
    (concatRows dfs).length = (dfs.map (fun d => d.rows.length)).sum := by
  induction dfs with
  | nil => rfl
  | cons df rest ih => rw [concatRows, List.length_append, ih, List.map_cons, List.sum_cons]

/-! ### Timestamp-coercion lemmas -/

theorem parseRowsTime_none_of_mem (pt : String → Option Rat) (rows : List Row) (r : Row)
    (hr : r ∈ rows) (hbad : parseRowTime pt r = none) :
    parseRowsTime pt rows = none := by
  induction rows with
  | nil => cases hr
  | cons r0 rest ih =>
    rcases List.mem_cons.mp hr with h | h
    · subst h
      rw [parseRowsTime, hbad]
    · rw [parseRowsTime]
      cases h0 : parseRowTime pt r0 with
      | none => rfl
      | some r2 => simp [ih h]

/-! ### Growth-loop lemmas -/

theorem growthLoop_append (nf : String → String) (xs ys : List (String × DataFrame))
    (d : List (String × DataFrame)) :
    growthLoop nf (xs ++ ys) d = growthLoop nf ys (growthLoop nf xs d) := by
  induction xs generalizing d with
  | nil => rfl
  | cons p rest ih =>
    obtain ⟨sheet, sdf⟩ := p
    rw [List.cons_append, growthLoop, growthLoop]
    cases lookupSchool (nf sheet) with
    | some cfg => exact ih _
    | none => exact ih _

theorem growthLoop_get_stable (nf : String → String) (ys : List (String × DataFrame))
    (d : List (String × DataFrame)) (k : String)
    (hys : ∀ p ∈ ys, nf p.1 ≠ k) :
    alist_get (growthLoop nf ys d) k = alist_get d k := by
  induction ys generalizing d with
  | nil => rfl
  | cons p rest ih =>
    obtain ⟨sheet, sdf⟩ := p
    have hne : nf sheet ≠ k := hys (sheet, sdf) (List.mem_cons_self _ _)
    rw [growthLoop]
    cases lookupSchool (nf sheet) with
    | some cfg =>
      rw [ih _ (fun p hp => hys p (List.mem_cons.mpr (Or.inr hp))),
        alist_get_set_other _ _ _ _ (Ne.symm hne)]
    | none => exact ih _ (fun p hp => hys p (List.mem_cons.mpr (Or.inr hp)))

theorem growthLoop_keys_nodup (nf : String → String) (ys : List (String × DataFrame))
    (d : List (String × DataFrame)) (h : (d.map Prod.fst).Nodup) :
    ((growthLoop nf ys d).map Prod.fst).Nodup := by
  induction ys generalizing d with
  | nil => exact h
  | cons p rest ih =>
    obtain ⟨sheet, sdf⟩ := p
    rw [growthLoop]
    cases lookupSchool (nf sheet) with
    | some cfg => exact ih _ (alist_set_keys_nodup _ _ _ h)
    | none => exact ih _ h

/-! ### Code-point comparison: reflexive, total, transitive -/

theorem natListLe_refl : ∀ a : List Nat, natListLe a a = true
  | [] => rfl
  | x :: as => by
    rw [natListLe]
    simp only [Nat.lt_irrefl, if_false]
    exact natListLe_refl as

theorem natListLe_total : ∀ a b : List Nat, natListLe a b = true ∨ natListLe b a = true
  | [], _ => Or.inl rfl
  | _ :: _, [] => Or.inr rfl
  | x :: as, y :: bs => by
    rw [natListLe, natListLe]
    rcases Nat.lt_trichotomy x y with h | h | h
    · left
      rw [if_pos h]
    · subst h
      simp only [Nat.lt_irrefl, if_false]
      exact natListLe_total as bs
    · right
      rw [if_pos h]

theorem natListLe_trans : ∀ a b c : List Nat,
    natListLe a b = true → natListLe b c = true → natListLe a c = true
  | [], _, _, _, _ => rfl
  | _ :: _, [], _, hab, _ => by simp [natListLe] at hab
  | _ :: _, _ :: _, [], _, hbc => by simp [natListLe] at hbc
  | x :: as, y :: bs, z :: cs, hab, hbc => by
    rw [natListLe] at hab hbc ⊢
    by_cases hxy : x < y
    · by_cases hyz : y < z
      · rw [if_pos (Nat.lt_trans hxy hyz)]
      · by_cases hzy : z < y
        · rw [if_neg hyz, if_pos hzy] at hbc
          exact absurd hbc (by simp)
        · have hyz2 : y = z := Nat.le_antisymm (Nat.not_lt.mp hzy) (Nat.not_lt.mp hyz)
          rw [if_pos (hyz2 ▸ hxy)]
    · by_cases hyx : y < x
      · rw [if_neg hxy, if_pos hyx] at hab
        exact absurd hab (by simp)
      · have hxy2 : x = y := Nat.le_antisymm (Nat.not_lt.mp hyx) (Nat.not_lt.mp hxy)
        subst hxy2
        rw [if_neg hxy, if_neg hyx] at hab
        by_cases hxz : x < z
        · rw [if_pos hxz]
        · by_cases hzx : z < x
          · rw [if_neg hxz, if_pos hzx] at hbc
            exact absurd hbc (by simp)
          · rw [if_neg hxz, if_neg hzx] at hbc ⊢
            exact natListLe_trans as bs cs hab hbc

theorem strLeB_refl (a : String) : strLeB a a = true := natListLe_refl _

theorem strLeB_total (a b : String) : strLeB a b = true ∨ strLeB b a = true :=
  natListLe_total _ _

theorem strLeB_trans (a b c : String) (h1 : strLeB a b = true) (h2 : strLeB b c = true) :
    strLeB a c = true := natListLe_trans _ _ _ h1 h2

/-! ### Insertion sort: permutation and sortedness -/

theorem insertSorted_perm (s : String) : ∀ l : List String, (insertSorted s l).Perm (s :: l)
  | [] => List.Perm.refl _
  | x :: xs => by
    rw [insertSorted]
    by_cases h : strLeB s x
    · rw [if_pos h]
    · rw [if_neg h]
      exact ((insertSorted_perm s xs).cons x).trans (List.Perm.swap s x xs)

theorem sortStrings_perm : ∀ l : List String, (sortStrings l).Perm l
  | [] => List.Perm.refl _
  | x :: xs =>
    (insertSorted_perm x (sortStrings xs)).trans ((sortStrings_perm xs).cons x)

theorem insertSorted_pairwise (s : String) (l : List String)
    (h : l.Pairwise (fun a b => strLeB a b = true)) :
    (insertSorted s l).Pairwise (fun a b => strLeB a b = true) := by
  induction l with
  | nil => simp [insertSorted]
  | cons x xs ih =>
    rw [insertSorted]
    rcases List.pairwise_cons.mp h with ⟨hx, hxs⟩
    by_cases hsx : strLeB s x = true
    · rw [if_pos hsx]
      refine List.pairwise_cons.mpr ⟨?_, h⟩
      intro b hb
      rcases List.mem_cons.mp hb with hb | hb
      · exact hb ▸ hsx
      · exact strLeB_trans s x b hsx (hx b hb)
    · rw [if_neg hsx]
      refine List.pairwise_cons.mpr ⟨?_, ih hxs⟩
      intro b hb
      have hb2 : b ∈ s :: xs := (insertSorted_perm s xs).mem_iff.mp hb
      rcases List.mem_cons.mp hb2 with hb2 | hb2
      · rw [hb2]
        rcases strLeB_total s x with h2 | h2
        · exact absurd h2 hsx
        · exact h2
      · exact hx b hb2

theorem sortStrings_pairwise (l : List String) :
    (sortStrings l).Pairwise (fun a b => strLeB a b = true) := by
  induction l with
  | nil => simp [sortStrings]
  | cons x xs ih => exact insertSorted_pairwise x (sortStrings xs) ih

/-! ### First-occurrence deduplication -/

theorem mem_dedupFirstGo (l : List String) :
    ∀ seen x, x ∈ dedupFirstGo l seen ↔ x ∈ l ∧ ¬ x ∈ seen := by
  induction l with
  | nil => simp [dedupFirstGo]
  | cons s rest ih =>
    intro seen x
    rw [dedupFirstGo]
    by_cases hs : seen.contains s
    · rw [if_pos hs, ih]
      simp only [List.mem_cons]
      constructor
      · intro ⟨h1, h2⟩
        exact ⟨Or.inr h1, h2⟩
      · intro ⟨h1, h2⟩
        rcases h1 with h1 | h1
        · exact absurd (h1 ▸ List.elem_iff.mp hs) h2
        · exact ⟨h1, h2⟩
    · rw [if_neg hs]
      simp only [List.mem_cons, ih]
      constructor
      · intro h1
        rcases h1 with h1 | ⟨h1, h2⟩
        · subst h1
          exact ⟨Or.inl rfl, fun hc => hs (List.elem_iff.mpr hc)⟩
        · exact ⟨Or.inr h1, fun hc => h2 (Or.inr hc)⟩
      · intro ⟨h1, h2⟩
        rcases h1 with h1 | h1
        · exact Or.inl h1
        · by_cases hxs : x = s
          · exact Or.inl hxs
          · exact Or.inr ⟨h1, fun hc => hc.elim hxs h2⟩

theorem dedupFirstGo_nodup (l : List String) : ∀ seen, (dedupFirstGo l seen).Nodup := by
  induction l with
  | nil => intro seen; simp [dedupFirstGo]
  | cons s rest ih =>
    intro seen
    rw [dedupFirstGo]
    by_cases hs : seen.contains s
    · rw [if_pos hs]
      exact ih seen
    · rw [if_neg hs]
      refine List.nodup_cons.mpr ⟨?_, ih (s :: seen)⟩
      intro hc
      exact ((mem_dedupFirstGo rest (s :: seen) s).mp hc).2 (List.mem_cons_self s seen)

theorem mem_dedupFirst (l : List String) (x : String) : x ∈ dedupFirst l ↔ x ∈ l := by
  rw [dedupFirst, mem_dedupFirstGo]
  simp

theorem dedupFirst_nodup (l : List String) : (dedupFirst l).Nodup := dedupFirstGo_nodup l []

/-! ### Maximum and first-argmax lemmas -/

theorem listMaxQ_eq_none : ∀ l : List Rat, listMaxQ l = none ↔ l = []
  | [] => by simp [listMaxQ]
  | x :: xs => by
    rw [listMaxQ]
    cases listMaxQ xs <;> simp

theorem listMaxQ_mem : ∀ (l : List Rat) (m : Rat), listMaxQ l = some m → m ∈ l
  | [], _, h => by cases h
  | x :: xs, m, h => by
    rw [listMaxQ] at h
    cases h2 : listMaxQ xs with
    | none =>
      rw [h2] at h
      exact List.mem_cons.mpr (Or.inl (Option.some_injective _ h).symm)
    | some m2 =>
      rw [h2] at h
      have h3 : qmax x m2 = m := Option.some_injective _ h
      rw [qmax_eq] at h3
      rcases max_choice x m2 with h4 | h4
      · rw [h4] at h3
        exact List.mem_cons.mpr (Or.inl h3.symm)
      · rw [h4] at h3
        exact List.mem_cons.mpr (Or.inr (h3 ▸ listMaxQ_mem xs m2 h2))

theorem listMaxQ_ge : ∀ (l : List Rat) (m : Rat), listMaxQ l = some m →
    ∀ x ∈ l, x ≤ m
  | [], _, _, _, hx => by cases hx
  | x :: xs, m, h, y, hy => by
    rw [listMaxQ] at h
    cases h2 : listMaxQ xs with
    | none =>
      rw [h2] at h
      have hxs : xs = [] := (listMaxQ_eq_none xs).mp h2
      have hm : x = m := Option.some_injective _ h
      subst hxs
      rcases List.mem_singleton.mp hy with rfl
      exact hm.le
    | some m2 =>
      rw [h2] at h
      have h3 : qmax x m2 = m := Option.some_injective _ h
      rw [qmax_eq] at h3
      rcases List.mem_cons.mp hy with rfl | hy2
      · exact h3 ▸ le_max_left y m2
      · exact le_trans (listMaxQ_ge xs m2 h2 y hy2) (h3 ▸ le_max_right x m2)

theorem findIdxEq_spec : ∀ (l : List (Option Rat)) (m : Rat) (i : Nat),
    findIdxEq m l = some i →
      l.get? i = some (some m) ∧ ∀ j < i, l.get? j ≠ some (some m)
  | [], _, _, h => by cases h
  | x :: xs, m, i, h => by
    rw [findIdxEq] at h
    by_cases hx : x = some m
    · rw [if_pos hx] at h
      have hi : i = 0 := (Option.some_injective _ h).symm
      subst hi
      exact ⟨by rw [List.get?_cons_zero, hx], fun j hj => absurd hj (Nat.not_lt_zero j)⟩
    · rw [if_neg hx] at h
      cases h2 : findIdxEq m xs with
      | none => rw [h2] at h; cases h
      | some i2 =>
        rw [h2] at h
        have hi : i = i2 + 1 := (Option.some_injective _ h).symm
        subst hi
        obtain ⟨hget, hfirst⟩ := findIdxEq_spec xs m i2 h2
        refine ⟨by rwa [List.get?_cons_succ], ?_⟩
        intro j hj
        cases j with
        | zero =>
          rw [List.get?_cons_zero]
          intro hc
          exact hx (Option.some_injective _ hc)
        | succ j2 =>
          rw [List.get?_cons_succ]
          exact hfirst j2 (Nat.lt_of_succ_lt_succ hj)

/-! ### Structure of the group-mean view -/

theorem mem_numericCols_ne_school (df : DataFrame) (c : String) (h : c ∈ numericCols df) :
    c ≠ "school" := by
  have h2 := List.of_mem_filter h
  intro hc
  rw [hc] at h2
  simp at h2

theorem avgRow_school (df : DataFrame) (k : String) :
    alist_get (avgRow df k) "school" = some (Cell.str k) := by
  simp [avgRow, alist_get]

theorem avgRow_col (df : DataFrame) (k c : String) (h : c ∈ numericCols df) :
    alist_get (avgRow df k) c = some (colMean (groupRows df k) c) := by
  rw [avgRow, alist_get, if_neg (fun hc => mem_numericCols_ne_school df c h hc.symm)]
  exact alist_get_map_pairs _ _ _ h

theorem schoolOf_avgRow (df : DataFrame) (k : String) : schoolOf (avgRow df k) = some k := by
  rw [schoolOf, avgRow_school]

theorem avg_rows_school_col (df : DataFrame) :
    (avg_by_school df).rows.map schoolOf = (avgKeys df).map some := by
  show ((avgKeys df).map (avgRow df)).map schoolOf = (avgKeys df).map some
  rw [List.map_map]
  exact List.map_congr_left (fun k _ => schoolOf_avgRow df k)

theorem colValsOpt_avg (df : DataFrame) (c : String) (h : c ∈ numericCols df) :
    colValsOpt (avg_by_school df) c =
      (avgKeys df).map (fun k =>
        match colMean (groupRows df k) c with
        | Cell.num q => some q
        | _ => none) := by
  show ((avgKeys df).map (avgRow df)).map _ = _
  rw [List.map_map]
  refine List.map_congr_left (fun k _ => ?_)
  show (match alist_get (avgRow df k) c with
        | some (Cell.num q) => some q
        | _ => none) = _
  rw [avgRow_col df k c h]
  cases colMean (groupRows df k) c <;> rfl

/-! ### Claim theorems -/

/-- C6: for every target file name and every list of directory entries,
`get_normalized_path` returns the first entry in directory-listing order
whose name equals the target after normalization of both names (exact
equality, not prefix or fuzzy match), and returns `none` exactly when no
entry normalizes to the target. -/
theorem get_normalized_path_spec (nf : String → String) (files : List String)
    (target : String) :
    (∀ p, get_normalized_path nf files target = some p →
      nf p = nf target ∧
      ∃ pre post, files = pre ++ p :: post ∧ ∀ q ∈ pre, nf q ≠ nf target) ∧
    (get_normalized_path nf files target = none ↔ ∀ q ∈ files, nf q ≠ nf target) := by
  induction files with
  | nil =>
    constructor
    · intro p h
      simp [get_normalized_path] at h
    · simp [get_normalized_path]
  | cons f rest ih =>
    constructor
    · intro p h
      rw [get_normalized_path] at h
      by_cases hf : nf f = nf target
      · rw [if_pos hf] at h
        obtain rfl : f = p := Option.some_injective _ h
        exact ⟨hf, [], rest, rfl, by simp⟩
      · rw [if_neg hf] at h
        obtain ⟨hp, pre, post, heq, hpre⟩ := ih.1 p h
        refine ⟨hp, f :: pre, post, by rw [List.cons_append, heq], ?_⟩
        intro q hq
        rcases List.mem_cons.mp hq with rfl | hq2
        · exact hf
        · exact hpre q hq2
    · rw [get_normalized_path]
      by_cases hf : nf f = nf target
      · rw [if_pos hf]
        constructor
        · intro h
          cases h
        · intro hall
          exact absurd hf (hall f (List.mem_cons_self f rest))
      · rw [if_neg hf, ih.2]
        constructor
        · intro hall q hq
          rcases List.mem_cons.mp hq with rfl | hq2
          · exact hf
          · exact hall q hq2
        · intro hall q hq
          exact hall q (List.mem_cons.mpr (Or.inr hq))

/-- Witness for C6: the composed target U+AC00 is located on disk under
its decomposed spelling U+1100 U+1161. -/
theorem get_normalized_path_spec_witness :
    nfcToy "가" = nfcToy "가" ∧
    ∃ pre post, ["가"] = pre ++ "가" :: post ∧ ∀ q ∈ pre, nfcToy q ≠ nfcToy "가" :=
  (get_normalized_path_spec nfcToy ["가"] "가").1 "가" rfl

/-- C7: each sheet's name is normalized and checked for membership among
the known school names; an unknown sheet is skipped with no effect, and
a matched sheet is parsed, tagged on every row with the normalized name
and that school's target EC, and stored under the normalized name. -/
theorem growth_sheet_processing (nf : String → String) (sheet : String) (sdf : DataFrame)
    (rest d : List (String × DataFrame)) :
    (lookupSchool (nf sheet) = none →
      growthLoop nf ((sheet, sdf) :: rest) d = growthLoop nf rest d) ∧
    (∀ cfg, lookupSchool (nf sheet) = some cfg →
      growthLoop nf ((sheet, sdf) :: rest) d =
        growthLoop nf rest
          (alist_set d (nf sheet) (addGroupCols sdf (nf sheet) cfg.ec_target)) ∧
      ∀ r ∈ (addGroupCols sdf (nf sheet) cfg.ec_target).rows,
        alist_get r "school" = some (Cell.str (nf sheet)) ∧
        alist_get r "target_ec" = some (Cell.num cfg.ec_target)) := by
  constructor
  · intro h
    rw [growthLoop, h]
  · intro cfg h
    refine ⟨by rw [growthLoop, h], ?_⟩
    intro r hr
    exact addGroupCols_row_tags _ _ _ r hr

/-- Witness for C7: the sheet named 송도고 is matched and its row is
tagged with the school name and target EC 1.0. -/
theorem growth_sheet_processing_witness :
    growthLoop (fun s => s) [("송도고", sheetSongdo)] [] =
      growthLoop (fun s => s) []
        (alist_set [] "송도고" (addGroupCols sheetSongdo "송도고" (1 : Rat))) ∧
    ∀ r ∈ (addGroupCols sheetSongdo "송도고" (1 : Rat)).rows,
      alist_get r "school" = some (Cell.str "송도고") ∧
      alist_get r "target_ec" = some (Cell.num 1) :=
  (growth_sheet_processing (fun s => s) "송도고" sheetSongdo [] []).2 ⟨1, "#ABDEE6"⟩ rfl

/-- C10: when several sheets normalize to the same known school name,
the dictionary entry for that school is the tagged table of the last
such sheet (earlier matches are overwritten), and the dictionary keeps
at most one entry per school, so each school contributes rows from at
most one sheet. -/
theorem growth_duplicate_sheets_last_wins (nf : String → String)
    (xs ys d : List (String × DataFrame)) (s2 : String) (d2 : DataFrame)
    (cfg : SchoolCfg)
    (hcfg : lookupSchool (nf s2) = some cfg)
    (hys : ∀ p ∈ ys, nf p.1 ≠ nf s2)
    (hnd : (d.map Prod.fst).Nodup) :
    alist_get (growthLoop nf (xs ++ (s2, d2) :: ys) d) (nf s2) =
      some (addGroupCols d2 (nf s2) cfg.ec_target) ∧
    ((growthLoop nf (xs ++ (s2, d2) :: ys) d).map Prod.fst).Nodup := by
  constructor
  · rw [growthLoop_append]
    rw [show (s2, d2) :: ys = [(s2, d2)] ++ ys from rfl, growthLoop_append]
    rw [growthLoop_get_stable nf ys _ (nf s2) hys]
    rw [growthLoop, hcfg, growthLoop]
    exact alist_get_set_self _ _ _
  · exact growthLoop_keys_nodup nf _ d hnd

/-- Witness for C10: with two sheets both named 송도고, the stored table
for 송도고 is the second sheet's tagged table, not the first's. -/
theorem growth_duplicate_sheets_last_wins_witness :
    alist_get (growthLoop (fun s => s)
        ([("송도고", sheetSongdo)] ++ ("송도고", sheetSongdoB) :: []) []) "송도고" =
      some (addGroupCols sheetSongdoB "송도고" (1 : Rat)) ∧
    ((growthLoop (fun s => s)
        ([("송도고", sheetSongdo)] ++ ("송도고", sheetSongdoB) :: []) []).map
          Prod.fst).Nodup :=
  growth_duplicate_sheets_last_wins (fun s => s) [("송도고", sheetSongdo)] [] []
    "송도고" sheetSongdoB ⟨1, "#ABDEE6"⟩ rfl (by simp) (by simp)

/-- C5: aggregation of zero or more per-group tables yields one table
whose row order is the concatenation order of the inputs, whose row
count is the sum of the inputs' row counts, whose column set is the
union of the input column sets, in which a column absent from a row
reads as a missing value rather than an error, and which is the
explicitly-empty table when the input sequence is empty. -/
theorem pd_concat_spec (dfs : List DataFrame) :
    (pd_concat dfs).rows = (dfs.map DataFrame.rows).flatten ∧
    (pd_concat dfs).rows.length = (dfs.map (fun d => d.rows.length)).sum ∧
    (∀ c, c ∈ (pd_concat dfs).cols ↔ ∃ df ∈ dfs, c ∈ df.cols) ∧
    (∀ r ∈ (pd_concat dfs).rows, ∀ c, alist_get r c = none → getCell r c = Cell.null) ∧
    pd_concat [] = DataFrame.empty := by
  have hnull : ∀ r ∈ (pd_concat dfs).rows, ∀ c, alist_get r c = none →
      getCell r c = Cell.null := by
    intro r _ c hc
    rw [getCell, hc, Option.getD]
  by_cases h : dfs.isEmpty = true
  · obtain rfl : dfs = [] := List.isEmpty_iff.mp h
    exact ⟨rfl, rfl, by simp [pd_concat, DataFrame.empty], hnull, rfl⟩
  · have hpc : pd_concat dfs = concatDFs dfs := if_neg h
    refine ⟨?_, ?_, ?_, hnull, rfl⟩
    · rw [hpc]
      exact concatRows_eq_flatten dfs
    · rw [hpc]
      exact concatRows_length dfs
    · intro c
      rw [hpc]
      show c ∈ dfsColsUnion [] dfs ↔ _
      rw [mem_dfsColsUnion]
      simp

/-- Witness for C5: groups A (3 rows), B (0 rows) and C (5 rows)
concatenate to an 8-row table whose rows are A's then C's. -/
theorem pd_concat_spec_witness :
    (pd_concat [dfA, dfB0, dfC]).rows =
      ([dfA, dfB0, dfC].map DataFrame.rows).flatten ∧
    (pd_concat [dfA, dfB0, dfC]).rows.length = 8 :=
  ⟨(pd_concat_spec [dfA, dfB0, dfC]).1,
   ((pd_concat_spec [dfA, dfB0, dfC]).2.1).trans rfl⟩

/-- C4: when loading succeeds with the two unified tables, the script
halts at the emptiness gate (with a reported message, before building
any view) exactly when the environmental table or the growth table is
empty, and proceeds with both tables when neither is empty. -/
theorem gate_spec (fs : FS) (env growth : DataFrame)
    (h : load_data fs = Except.ok (LoadRet.ok env growth)) :
    (run_to_gate fs = TopOutcome.halted ↔
      (env.rows.isEmpty || growth.rows.isEmpty) = true) ∧
    ((env.rows.isEmpty || growth.rows.isEmpty) = false →
      run_to_gate fs = TopOutcome.proceeding env growth) := by
  have hg : run_to_gate fs =
      if env.rows.isEmpty || growth.rows.isEmpty then TopOutcome.halted
      else TopOutcome.proceeding env growth := by
    rw [run_to_gate, h]
    rfl
  refine ⟨⟨fun h2 => ?_, fun h2 => ?_⟩, fun h2 => ?_⟩
  · by_contra h3
    rw [Bool.not_eq_true] at h3
    rw [hg, if_neg (fun hc => by rw [h3] at hc; cases hc)] at h2
    cases h2
  · rw [hg, if_pos h2]
  · rw [hg, if_neg (fun hc => by rw [h2] at hc; cases hc)]

/-- Witness for C4: the fully successful run has two non-empty tables
and proceeds past the gate. -/
theorem gate_spec_witness : run_to_gate fsW = TopOutcome.proceeding envW growthW :=
  (gate_spec fsW envW growthW rfl).2 rfl

/-- C1 counterexample: for the run `fsCrash`, in which reading the CSV
of 송도고 raises, `load_data` does not catch the exception, reports no
warning, and contributes no result at all — the error propagates and no
table set is returned. -/
theorem env_read_error_aborts_cex :
    load_data fsCrash = Except.error "read failure" ∧
    ∀ ret, load_data fsCrash ≠ Except.ok ret := by
  refine ⟨rfl, ?_⟩
  intro ret h
  exact Except.noConfusion
    ((Eq.symm (rfl : load_data fsCrash = Except.error "read failure")).trans h)

/-- C1 amended: an exception raised while reading or parsing a group's
environmental source is not caught: it propagates out of `load_data`,
aborting the whole run with no warning and no rows from any group. -/
theorem env_error_propagates (fs : FS) (e : String)
    (hb : fs.baseExists = true)
    (he : loadEnvDfs fs school_info = Except.error e) :
    load_data fs = Except.error e := by
  rw [load_data, if_pos hb, he]

/-- Witness for C1: the crashing run instantiates the propagation
theorem. -/
theorem env_error_propagates_witness : load_data fsCrash = Except.error "read failure" :=
  env_error_propagates fsCrash "read failure" rfl rfl

/-- C2 counterexample: for the run `fsBadTime`, whose CSV has one
parsable and one unparsable time value, ingestion raises instead of
returning the table of valid rows. -/
theorem time_parse_error_aborts_cex :
    load_data fsBadTime = Except.error "time parse error" ∧
    ∀ ret, load_data fsBadTime ≠ Except.ok ret := by
  refine ⟨rfl, ?_⟩
  intro ret h
  exact Except.noConfusion
    ((Eq.symm (rfl : load_data fsBadTime = Except.error "time parse error")).trans h)

/-- C2 amended: when any row of the concatenated environmental table
has a time value the timestamp parser rejects, `load_data` raises from
the timestamp-coercion step: no environmental table is returned, so
rows with unparsable timestamps are not dropped — they abort the run. -/
theorem time_parse_error_propagates (fs : FS) (dfs : List DataFrame) (r : Row)
    (hb : fs.baseExists = true)
    (h1 : loadEnvDfs fs school_info = Except.ok dfs)
    (hcol : (pd_concat dfs).cols.contains "time" = true)
    (hr : r ∈ (pd_concat dfs).rows)
    (hbad : parseRowTime fs.parseTs r = none) :
    load_data fs = Except.error "time parse error" := by
  have hne : (pd_concat dfs).rows.isEmpty = false := by
    cases hrows : (pd_concat dfs).rows with
    | nil => rw [hrows] at hr; cases hr
    | cons a as => rfl
  have ht : to_datetime_col fs.parseTs (pd_concat dfs) = Except.error "time parse error" := by
    rw [to_datetime_col, if_pos hcol,
      parseRowsTime_none_of_mem fs.parseTs _ r hr hbad]
  have hif : (if (pd_concat dfs).rows.isEmpty = true then Except.ok (pd_concat dfs)
      else to_datetime_col fs.parseTs (pd_concat dfs)) = Except.error "time parse error" := by
    rw [if_neg (fun hc => by rw [hne] at hc; cases hc)]
    exact ht
  rw [load_data, if_pos hb]
  simp only [h1, hif]

/-- Witness for C2: the mixed-validity run instantiates the
coercion-failure theorem. -/
theorem time_parse_error_propagates_witness :
    load_data fsBadTime = Except.error "time parse error" :=
  time_parse_error_propagates fsBadTime
    [addGroupCols csvSongdoBad "송도고" 1] badRow rfl rfl rfl (by decide) rfl

/-- C3 counterexample: an exception raised while reading a group's
source escapes the ingestion boundary to the caller: the run `fsCrash`
ends in an uncaught exception, not in a partial result or an explicit
halting signal. -/
theorem ingestion_boundary_cex :
    run_to_gate fsCrash = TopOutcome.uncaught "read failure" := rfl

/-- C3 amended: if the configured base directory does not exist, the
ingestion operation reports the condition and immediately returns the
two-element `None` result with no partial tables; however, exceptions
raised while reading group sources do escape the ingestion boundary, so
not every failure kind resolves to a partial result or one explicit
halting signal. -/
theorem load_data_missing_dir (fs : FS) (h : fs.baseExists = false) :
    load_data fs = Except.ok LoadRet.missingDir ∧
    load_data fsCrash = Except.error "read failure" := by
  refine ⟨?_, rfl⟩
  rw [load_data, if_neg (fun hc => by rw [h] at hc; cases hc)]

/-- Witness for C3: the missing-directory run instantiates the amended
theorem. -/
theorem load_data_missing_dir_witness :
    load_data fsNoBase = Except.ok LoadRet.missingDir ∧
    load_data fsCrash = Except.error "read failure" :=
  load_data_missing_dir fsNoBase rfl

/-- C8 counterexample: on a table whose groups appear (and are
configured) in the order 송도고, 동산고, the group-mean view lists
동산고 first — neither the first-appearance order nor the configured
order. -/
theorem avg_order_cex :
    (avg_by_school cexDf8).rows.map schoolOf = [some "동산고", some "송도고"] ∧
    spec_first_appearance_order cexDf8 = ["송도고", "동산고"] ∧
    spec_configured_order cexDf8 = ["송도고", "동산고"] ∧
    ([some "동산고", some "송도고"] : List (Option String)) ≠
      [some "송도고", some "동산고"] :=
  ⟨rfl, rfl, rfl, by decide⟩

/-- C8 amended: the group-mean view has exactly one row per distinct
group present in the table, each numeric attribute of a group's row
holding the arithmetic mean of that attribute over the group's rows
(count times mean equals sum); the group rows are ordered by ascending
group name in code-point order — a deterministic order, but in general
neither the first-appearance order nor the configured group order. -/
theorem avg_by_school_spec (df : DataFrame) :
    ((avg_by_school df).rows.map schoolOf = (avgKeys df).map some) ∧
    (avgKeys df).Pairwise (fun a b => strLeB a b = true) ∧
    (avgKeys df).Nodup ∧
    (∀ k, k ∈ avgKeys df ↔ k ∈ df.rows.filterMap schoolOf) ∧
    (∀ k c, c ∈ numericCols df →
      alist_get (avgRow df k) c = some (colMean (groupRows df k) c)) ∧
    (∀ k c q, colMean (groupRows df k) c = Cell.num q →
      ((colVals (groupRows df k) c).length : Rat) * q =
        (colVals (groupRows df k) c).sum) := by
  refine ⟨avg_rows_school_col df, sortStrings_pairwise _,
    ((sortStrings_perm _).nodup_iff).mpr (dedupFirst_nodup _),
    fun k => ((sortStrings_perm _).mem_iff).trans (mem_dedupFirst _ k),
    fun k c h => avgRow_col df k c h, ?_⟩
  intro k c q h
  rw [colMean] at h
  by_cases he : (colVals (groupRows df k) c).isEmpty = true
  · rw [if_pos he] at h
    cases h
  · rw [if_neg he] at h
    have hq : qdivNat (qsum (colVals (groupRows df k) c))
        (colVals (groupRows df k) c).length = q := Cell.num.inj h
    have hlen : (colVals (groupRows df k) c).length ≠ 0 := by
      intro hc
      exact he (List.isEmpty_iff.mpr (List.length_eq_zero.mp hc))
    rw [qdivNat_eq _ _ hlen, qsum_eq] at hq
    rw [← hq, mul_comm,
      div_mul_cancel₀ _ (Nat.cast_ne_zero.mpr hlen : ((colVals (groupRows df k) c).length : Rat) ≠ 0)]

/-- Witness for C8: the school column of the view on the two-group
table, with the tie to the sorted key list. -/
theorem avg_by_school_spec_witness :
    (avg_by_school cexDf8).rows.map schoolOf = (avgKeys cexDf8).map some :=
  (avg_by_school_spec cexDf8).1

/-- C9 counterexample: two groups tie on mean fresh weight; the group
occurring first in the table (and first in the configured order) is
하늘고, but the extremum view returns 동산고 — the tie is not broken by
first occurrence. -/
theorem best_school_tie_cex :
    best_school (avg_by_school cexDf9) = some "동산고" ∧
    spec_first_appearance_order cexDf9 = ["하늘고", "동산고"] ∧
    spec_configured_order cexDf9 = ["하늘고", "동산고"] ∧
    colMean (groupRows cexDf9 "하늘고") "생중량(g)" =
      colMean (groupRows cexDf9 "동산고") "생중량(g)" ∧
    ("동산고" : String) ≠ "하늘고" :=
  ⟨rfl, rfl, rfl, by decide, by decide⟩

/-- C9 amended: the extremum view returns a group whose mean of the
named attribute is maximal among the groups present; a tie is broken in
favour of the lexicographically smallest group name (the first row of
the sorted group-mean view), not the first-occurring group. -/
theorem best_school_spec (df : DataFrame) (s : String)
    (hcol : "생중량(g)" ∈ numericCols df)
    (hnum : ∀ k ∈ avgKeys df, ∃ q : Rat,
      colMean (groupRows df k) "생중량(g)" = Cell.num q)
    (hs : best_school (avg_by_school df) = some s) :
    s ∈ avgKeys df ∧
    (∀ k ∈ avgKeys df, ∀ qk qs2 : Rat,
      colMean (groupRows df k) "생중량(g)" = Cell.num qk →
      colMean (groupRows df s) "생중량(g)" = Cell.num qs2 → qk ≤ qs2) ∧
    (∀ k ∈ avgKeys df,
      colMean (groupRows df k) "생중량(g)" = colMean (groupRows df s) "생중량(g)" →
      strLeB s k = true) := by
  have hl : colValsOpt (avg_by_school df) "생중량(g)" =
      (avgKeys df).map (fun k =>
        match colMean (groupRows df k) "생중량(g)" with
        | Cell.num q => some q
        | _ => none) := colValsOpt_avg df _ hcol
  simp only [best_school] at hs
  obtain ⟨i, hi, hrest⟩ := Option.bind_eq_some.mp hs
  obtain ⟨r, hr, hsch⟩ := Option.bind_eq_some.mp hrest
  have hrows : (avg_by_school df).rows = (avgKeys df).map (avgRow df) := rfl
  rw [hrows, List.get?_map] at hr
  obtain ⟨ki, hki, hrow⟩ := Option.map_eq_some'.mp hr
  have hski : s = ki := by
    rw [← hrow, avgRow_school] at hsch
    exact (Option.some_injective _ hsch).symm
  subst hski
  have hsmem : s ∈ avgKeys df := List.get?_mem hki
  rw [idxmax] at hi
  cases hm : listMaxQ ((colValsOpt (avg_by_school df) "생중량(g)").filterMap id) with
  | none => rw [hm] at hi; cases hi
  | some m =>
    rw [hm] at hi
    obtain ⟨hget, hfirst⟩ := findIdxEq_spec _ m i hi
    have hmOf : ∀ k : String, ∀ qk : Rat,
        colMean (groupRows df k) "생중량(g)" = Cell.num qk →
        (match colMean (groupRows df k) "생중량(g)" with
         | Cell.num q => some q
         | _ => none) = some qk := by
      intro k qk hk
      rw [hk]
    have hgeti : (colValsOpt (avg_by_school df) "생중량(g)").get? i =
        some (match colMean (groupRows df s) "생중량(g)" with
              | Cell.num q => some q
              | _ => none) := by
      rw [hl, List.get?_map, hki, Option.map_some']
    have hsm : colMean (groupRows df s) "생중량(g)" = Cell.num m := by
      obtain ⟨qs, hqs⟩ := hnum s hsmem
      have h2 := hgeti.symm.trans hget
      rw [hmOf s qs hqs] at h2
      have h3 : qs = m := Option.some_injective _ (Option.some_injective _ h2)
      rw [hqs, h3]
    have hmax : ∀ k ∈ avgKeys df, ∀ qk : Rat,
        colMean (groupRows df k) "생중량(g)" = Cell.num qk → qk ≤ m := by
      intro k hk qk hq
      have hmem2 : some qk ∈ colValsOpt (avg_by_school df) "생중량(g)" := by
        rw [hl]
        exact List.mem_map.mpr ⟨k, hk, hmOf k qk hq⟩
      have hmem3 : qk ∈ (colValsOpt (avg_by_school df) "생중량(g)").filterMap id :=
        List.mem_filterMap.mpr ⟨some qk, hmem2, rfl⟩
      exact listMaxQ_ge _ m hm qk hmem3
    refine ⟨hsmem, ?_, ?_⟩
    · intro k hk qk qs2 hq hq2
      have : qs2 = m := Cell.num.inj (hq2.symm.trans hsm)
      exact this ▸ hmax k hk qk hq
    · intro k hk heq
      have hkm : colMean (groupRows df k) "생중량(g)" = Cell.num m := heq.trans hsm
      obtain ⟨j, hj⟩ := List.get?_of_mem hk
      have hgetj : (colValsOpt (avg_by_school df) "생중량(g)").get? j = some (some m) := by
        rw [hl, List.get?_map, hj, Option.map_some', hmOf k m hkm]
      have hij : ¬ j < i := fun hc => hfirst j hc hgetj
      rcases Nat.lt_or_ge i j with hlt | hge
      · obtain ⟨hiL, hgi⟩ := List.get?_eq_some.mp hki
        obtain ⟨hjL, hgj⟩ := List.get?_eq_some.mp hj
        have hpw := List.pairwise_iff_get.mp
          (show (avgKeys df).Pairwise (fun a b => strLeB a b = true) from
            sortStrings_pairwise _)
        have := hpw ⟨i, hiL⟩ ⟨j, hjL⟩ (Fin.mk_lt_mk.mpr hlt)
        rw [hgi, hgj] at this
        exact this
      · have hji : j = i := Nat.le_antisymm hge (Nat.le_of_not_lt hij)
        subst hji
        have : k = s := Option.some_injective _ (hj.symm.trans hki)
        rw [this]
        exact strLeB_refl s

/-- Witness for C9: on the tied table the theorem applies and yields the
tie-break inequality for every group. -/
theorem best_school_spec_witness : "동산고" ∈ avgKeys cexDf9 :=
  (best_school_spec cexDf9 "동산고" (by decide)
    (by
      intro k hk
      have hkeys : avgKeys cexDf9 = ["동산고", "하늘고"] := rfl
      rw [hkeys] at hk
      rcases List.mem_cons.mp hk with rfl | hk2
      · exact ⟨5, by decide⟩
      · rcases List.mem_cons.mp hk2 with rfl | hk3
        · exact ⟨5, by decide⟩
        · cases hk3)
    rfl).1

end PolarPlant
